import Mathlib

/-!
LSP client protocol engine (`project2/lsp/client_impl.go`).

A shallow embedding of the client's protocol engine: the connection state
(`client`), the per-case bodies of the `master` event loop, `findNewMin`,
`epochHelper`, and the facade calls `Write` and `Close`.

Modelling conventions.

* Go's `int` is 64 bit; every `++` and `+` of the source is followed by
  `wrap64`, the two's complement wrap-around.
* A Go `map[int]*Message` is an `AList` (association list without duplicate
  keys).  Go leaves the iteration order of a map unspecified; the model
  iterates in the order of the entries, and statements about what a `range`
  loop sends are meant up to that order.  `findNewMin` does not depend on it.
* Channels are queues.  `intermedReadCh`, `connectCh` record what the engine
  pushed, `writeCh` holds the pending write requests, `closeCh` counts the
  close signals the engine emitted.  Channel capacity only delays a push and
  is not modelled.
* `wire` is the trace of the messages handed to `connection.Write`, oldest
  first; writes to the socket are assumed to succeed.
* The retry loop of the write case is run with a bound on the number of
  iterations (`fuel`); `none` means that no result was produced within it.
-/

namespace lsp

/-! ## Constants and machine integers -/

/-- The constant `MaxInt = int(^uint(0) >> 1)` on a 64 bit platform. -/
def MaxInt : Int := 9223372036854775807

/-- The smallest 64 bit signed integer. -/
def MinInt : Int := -9223372036854775808

/-- Two's complement wrap-around of a 64 bit signed integer. -/
def wrap64 (x : Int) : Int :=
  (x + 9223372036854775808) % 18446744073709551616 - 9223372036854775808

/-! ## Messages -/

/-- Modelled from the spec: the kind tag of a wire message (`MsgConnect`,
`MsgData`, `MsgAck`); the declaration lives in the message file of the
package, which is not among the sources. -/
inductive MsgType where
  | MsgConnect
  | MsgData
  | MsgAck
deriving DecidableEq

/-- Modelled from the spec: the wire `Message` record (kind, connection id,
sequence number, payload bytes); the declaration lives in the message file of
the package, which is not among the sources. -/
structure Message where
  Kind : MsgType
  ConnID : Int
  SeqNum : Int
  Payload : List (Fin 256)
deriving DecidableEq

/-- Modelled from the spec: `NewConnect()` builds a Connect message. -/
def NewConnect : Message :=
  { Kind := MsgType.MsgConnect, ConnID := 0, SeqNum := 0, Payload := [] }

/-- Modelled from the spec: `NewData(connID, seqNum, payload)` builds a Data
message. -/
def NewData (connID seqNum : Int) (payload : List (Fin 256)) : Message :=
  { Kind := MsgType.MsgData, ConnID := connID, SeqNum := seqNum, Payload := payload }

/-- Modelled from the spec: `NewAck(connID, seqNum)` builds an Ack message. -/
def NewAck (connID seqNum : Int) : Message :=
  { Kind := MsgType.MsgAck, ConnID := connID, SeqNum := seqNum, Payload := [] }

/-- Modelled from the spec: the client configuration `Params` (`EpochLimit`,
`EpochMillis`, `WindowSize`); the declaration is not among the sources. -/
structure Params where
  EpochLimit : Int
  EpochMillis : Int
  WindowSize : Int
deriving DecidableEq

/-! ## Maps from sequence numbers to messages -/

/-- A Go `map[int]*Message`. -/
abbrev MsgMap := AList (fun _ : Int => Message)

instance : DecidableEq MsgMap := fun m1 m2 =>
  decidable_of_iff (m1.entries = m2.entries) ⟨AList.ext, fun h => congrArg AList.entries h⟩

/-- The builtin `len` of a map. -/
def len (m : MsgMap) : Int := (m.entries.length : Int)

/-- The messages stored in a map, in iteration order. -/
def values (m : MsgMap) : List Message := m.entries.map (fun e => e.2)

/-- The method `findNewMin`: the smallest key of the map, `MaxInt` when there
is none below it. -/
def findNewMin (currentMap : MsgMap) : Int :=
  currentMap.keys.foldl
    (fun currentLowest key => if key < currentLowest then key else currentLowest) MaxInt

/-! ## Connection state -/

/-- The `client` struct, with the socket replaced by the trace `wire`. -/
structure client where
  connID : Int
  currWriteSN : Int
  lowestUnackSN : Int
  expectedSN : Int
  connectCh : List Message
  writeCh : List Message
  closeCh : Nat
  isClosed : Bool
  intermedReadCh : List Message
  dataWindow : MsgMap
  ackWindow : MsgMap
  numEpochs : Int
  windowSize : Int
  epochMilli : Int
  epochLimit : Int
  wire : List Message
deriving DecidableEq

/-- The method `sendMessage`: hand one message to the connection. -/
def sendMessage (c : client) (msg : Message) : client :=
  { c with wire := c.wire ++ [msg] }

/-! ## Construction -/

/-- The first half of `NewClient`: the struct literal followed by the first
Connect request, up to the point where the constructor blocks on `connectCh`. -/
def NewClientInit (params : Params) : client :=
  { connID := 0
    currWriteSN := 1
    lowestUnackSN := 0
    expectedSN := 1
    connectCh := []
    writeCh := []
    closeCh := 0
    isClosed := false
    intermedReadCh := []
    dataWindow := ∅
    ackWindow := ∅
    numEpochs := 0
    windowSize := params.WindowSize
    epochMilli := params.EpochMillis
    epochLimit := params.EpochLimit
    wire := [NewConnect] }

/-- The second half of `NewClient`: a non-nil `connectAck` was taken from
`connectCh`; the connection id is adopted and `lowestUnackSN` incremented. -/
def NewClientFinish (c : client) (connectAck : Message) : client :=
  { c with connID := connectAck.ConnID, lowestUnackSN := wrap64 (c.lowestUnackSN + 1) }

/-- The freshly connected client: `NewClient` returned without error after the
server acknowledged the Connect request with `connectAck`. -/
def freshClient (params : Params) (connectAck : Message) : client :=
  NewClientFinish (NewClientInit params) connectAck

/-! ## Facade -/

/-- The method `Write`: enqueue a Data message carrying `currWriteSN`. -/
def Write (c : client) (payload : List (Fin 256)) : client :=
  if !c.isClosed then
    { c with
      writeCh := c.writeCh ++ [NewData c.connID c.currWriteSN payload]
      currWriteSN := wrap64 (c.currWriteSN + 1) }
  else c

/-- The method `Close`. -/
def Close (c : client) : client :=
  { c with isClosed := true }

/-! ## The cases of `master` -/

/-- Case `MsgAck` of the `readCh` case of `master`. -/
def masterAck (c : client) (msg : Message) : client :=
  let currentSN := msg.SeqNum
  if currentSN = 0 then
    { c with connectCh := c.connectCh ++ [msg] }
  else if currentSN ∈ c.dataWindow then
    let c1 : client := { c with dataWindow := c.dataWindow.erase currentSN }
    let c2 : client :=
      if currentSN = c1.lowestUnackSN then
        if len c1.dataWindow = 0 then
          { c1 with lowestUnackSN := findNewMin c1.dataWindow }
        else
          { c1 with lowestUnackSN := wrap64 (c1.lowestUnackSN + 1) }
      else c1
    if c2.isClosed && decide (c2.writeCh.length = 0) && decide (len c2.dataWindow = 0) then
      { c2 with closeCh := c2.closeCh + 1 }
    else c2
  else c

/-- Case `MsgData` of the `readCh` case of `master`. -/
def masterData (c : client) (msg : Message) : client :=
  let currentSN := msg.SeqNum
  if currentSN = c.expectedSN then
    let ackMsg := NewAck c.connID currentSN
    let c1 : client :=
      { c with
        intermedReadCh := c.intermedReadCh ++ [msg]
        expectedSN := wrap64 (c.expectedSN + 1)
        numEpochs := 0 }
    let c2 := sendMessage c1 ackMsg
    let oldestAckSN := findNewMin c2.ackWindow
    { c2 with ackWindow := (c2.ackWindow.erase oldestAckSN).insert currentSN ackMsg }
  else c

/-- The `readCh` case of `master`: dispatch on the kind of the message. -/
def masterRead (c : client) (msg : Message) : client :=
  match msg.Kind with
  | MsgType.MsgAck => masterAck c msg
  | MsgType.MsgData => masterData c msg
  | MsgType.MsgConnect => c

/-- The admission test of the write case. -/
def admissible (c : client) (msg : Message) : Prop :=
  c.lowestUnackSN ≤ msg.SeqNum ∧ msg.SeqNum ≤ wrap64 (c.lowestUnackSN + c.windowSize) ∧
    len c.dataWindow < c.windowSize

instance (c : client) (msg : Message) : Decidable (admissible c msg) := by
  unfold admissible; infer_instance

/-- The state after the body of the admission test ran: the message was
written to the connection and recorded in `dataWindow`. -/
def transmit (c : client) (msg : Message) : client :=
  { c with wire := c.wire ++ [msg], dataWindow := c.dataWindow.insert msg.SeqNum msg }

/-- The `writeCh` case of `master` for the dequeued request `msg`: the loop
`for (!msgSent)`, run for at most `fuel` iterations. -/
def masterWrite : Nat → client → Message → Option client
  | 0, _, _ => none
  | fuel + 1, c, msg =>
    if admissible c msg then some (transmit c msg) else masterWrite fuel c msg

/-- The method `epochHelper`. -/
def epochHelper (c : client) : client :=
  if c.connID ≤ 0 then
    if c.numEpochs < c.epochLimit then sendMessage c NewConnect else Close c
  else if c.expectedSN = 0 then
    let ackMsg := NewAck c.connID 0
    let c1 := sendMessage c ackMsg
    { c1 with ackWindow := c1.ackWindow.insert 0 ackMsg }
  else
    let c1 := (values c.dataWindow).foldl sendMessage c
    let c2 := (values c.ackWindow).foldl sendMessage c1
    { c2 with numEpochs := wrap64 (c2.numEpochs + 1) }

/-- The events the `select` of `master` and the facade react to. -/
inductive Event where
  | recv (msg : Message)
  | write
  | epoch
  | apiWrite (payload : List (Fin 256))
  | apiClose
  | connected

/-- One event handled by the engine.  `recv`, `write` and `epoch` are the
`readCh`, `writeCh` and `epochCh` cases of `master`; `apiWrite` and `apiClose`
are calls of the facade; `connected` is the constructor taking the handshake
acknowledgement from `connectCh`.  `none`: the case is not ready (its channel
is empty) or its handler produced no result within `fuel` iterations. -/
def step (fuel : Nat) (c : client) : Event → Option client
  | Event.recv msg => some (masterRead c msg)
  | Event.write =>
    match c.writeCh with
    | [] => none
    | msg :: rest => masterWrite fuel { c with writeCh := rest } msg
  | Event.epoch => some (epochHelper c)
  | Event.apiWrite payload => some (Write c payload)
  | Event.apiClose => some (Close c)
  | Event.connected =>
    match c.connectCh with
    | [] => none
    | connectAck :: rest => some (NewClientFinish { c with connectCh := rest } connectAck)

/-- A sequence of events handled one after the other. -/
def run (fuel : Nat) : client → List Event → Option client
  | c, [] => some c
  | c, e :: es =>
    match step fuel c e with
    | none => none
    | some c1 => run fuel c1 es

/-! ## Scenario data -/

/-- A configuration with a window of one message and one handshake retry. -/
def params1 : Params := { EpochLimit := 1, EpochMillis := 2000, WindowSize := 1 }

/-- The server's acknowledgement of the Connect request, assigning id 7. -/
def connAck7 : Message := NewAck 7 0

/-- Inbound Data messages arriving in the order 3, 1, 2. -/
def arrival312 : List Message := [NewData 7 3 [51], NewData 7 1 [49], NewData 7 2 [50]]

/-- The delivery invariant: the read queue holds the sequence numbers
`1, …, expectedSN - 1` in order, and at most `n` messages were accepted. -/
def Delivered (c : client) (n : Nat) : Prop :=
  1 ≤ c.expectedSN ∧ c.expectedSN ≤ 1 + (n : Int) ∧
    c.intermedReadCh.map (fun m => m.SeqNum) =
      (List.range' 1 (c.expectedSN - 1).toNat).map Int.ofNat

/-- The events of a short session: connect, two writes, epochs and acks. -/
def session : List Event :=
  [Event.recv connAck7, Event.connected, Event.apiWrite [65], Event.apiWrite [66],
    Event.write, Event.epoch, Event.recv (NewAck 7 1), Event.epoch]

/-- Payload "A" is written and sent with sequence number 1, acknowledged, and
payload "B" is written. -/
def scenarioAB : List Event :=
  [Event.apiWrite [65], Event.write, Event.recv (NewAck 7 1), Event.apiWrite [66]]

/-- The state after `scenarioAB`, started in the freshly connected client. -/
def afterAckA : client :=
  (run 1 (freshClient params1 connAck7) scenarioAB).getD (freshClient params1 connAck7)

/-- One outstanding message with sequence number 1, and a close requested. -/
def oneOutstanding : client :=
  Close (transmit (freshClient params1 connAck7) (NewData 7 1 [65]))

/-- The freshly connected client after "A" was written and transmitted with
sequence number 1; the window of one message is full. -/
def sentA : client :=
  (run 1 (freshClient params1 connAck7) [Event.apiWrite [65], Event.write]).getD
    (freshClient params1 connAck7)

/-- A configuration with a window of three messages. -/
def params3 : Params := { EpochLimit := 5, EpochMillis := 2000, WindowSize := 3 }

/-- Three messages are written and sent; the second is acknowledged first,
then the first. -/
def scenarioGap : List Event :=
  [Event.apiWrite [65], Event.apiWrite [66], Event.apiWrite [67],
    Event.write, Event.write, Event.write,
    Event.recv (NewAck 7 2), Event.recv (NewAck 7 1)]

/-- The state before the last event of `scenarioGap`. -/
def beforeAck1 : client :=
  (run 1 (freshClient params3 connAck7) scenarioGap.dropLast).getD (freshClient params3 connAck7)

/-- A configuration with a window of two messages. -/
def params2 : Params := { EpochLimit := 5, EpochMillis := 2000, WindowSize := 2 }

/-! ## Auxiliary lemmas -/

theorem wrap64_eq_self {x : Int} (h1 : MinInt ≤ x) (h2 : x ≤ MaxInt) : wrap64 x = x := by
  unfold wrap64
  unfold MinInt at h1
  unfold MaxInt at h2
  omega

theorem not_le_wrap64_MaxInt_add {ws sn : Int} (h1 : 1 ≤ ws) (h2 : ws ≤ MaxInt)
    (h3 : sn ≤ MaxInt) (h4 : MaxInt ≤ sn) (h5 : sn ≤ wrap64 (MaxInt + ws)) : False := by
  unfold wrap64 at h5
  unfold MaxInt at h2 h3 h4 h5
  omega

theorem foldl_sendMessage (l : List Message) (c : client) :
    l.foldl sendMessage c = { c with wire := c.wire ++ l } := by
  induction l generalizing c with
  | nil => simp
  | cons m l ih => simp [List.foldl, ih, sendMessage]

theorem len_nonneg (m : MsgMap) : 0 ≤ len m := by
  unfold len
  exact Int.ofNat_nonneg _

theorem len_erase_le (m : MsgMap) (k : Int) : len (m.erase k) ≤ len m := by
  unfold len
  have h : (m.erase k).entries.length ≤ m.entries.length :=
    (List.kerase_sublist k m.entries).length_le
  exact_mod_cast h

theorem len_insert_le (m : MsgMap) (k : Int) (v : Message) :
    len (m.insert k v) ≤ len m + 1 := by
  unfold len
  have h : (List.kerase k m.entries).length ≤ m.entries.length :=
    (List.kerase_sublist k m.entries).length_le
  simp only [AList.insert_entries, List.length_cons]
  exact_mod_cast Nat.succ_le_succ h

/-! ### The write loop -/

theorem masterWrite_succ (fuel : Nat) (c : client) (msg : Message) :
    masterWrite (fuel + 1) c msg = if admissible c msg then some (transmit c msg) else none := by
  induction fuel with
  | zero => simp [masterWrite]
  | succ k ih =>
    rw [masterWrite]
    split_ifs with h
    · rfl
    · rw [ih, if_neg h]

theorem masterWrite_eq_some {fuel : Nat} {c c1 : client} {msg : Message}
    (h : masterWrite fuel c msg = some c1) : admissible c msg ∧ c1 = transmit c msg := by
  cases fuel with
  | zero => simp [masterWrite] at h
  | succ k =>
    rw [masterWrite_succ] at h
    split_ifs at h with ha
    exact ⟨ha, (Option.some.inj h).symm⟩

/-! ### The window is bounded by every handler -/

theorem masterAck_window (c : client) (msg : Message) :
    len (masterAck c msg).dataWindow ≤ len c.dataWindow ∧
      (masterAck c msg).windowSize = c.windowSize := by
  unfold masterAck
  simp only
  split_ifs <;> simp [len_erase_le]

theorem masterData_window (c : client) (msg : Message) :
    (masterData c msg).dataWindow = c.dataWindow ∧
      (masterData c msg).windowSize = c.windowSize := by
  unfold masterData
  simp only
  split_ifs <;> simp [sendMessage]

theorem masterRead_window (c : client) (msg : Message) :
    len (masterRead c msg).dataWindow ≤ len c.dataWindow ∧
      (masterRead c msg).windowSize = c.windowSize := by
  unfold masterRead
  split
  · exact masterAck_window c msg
  · obtain ⟨h1, h2⟩ := masterData_window c msg
    rw [h1, h2]
    exact ⟨le_refl _, rfl⟩
  · exact ⟨le_refl _, rfl⟩

theorem epochHelper_window (c : client) :
    (epochHelper c).dataWindow = c.dataWindow ∧ (epochHelper c).windowSize = c.windowSize := by
  unfold epochHelper
  simp only [foldl_sendMessage]
  split_ifs <;> simp [sendMessage, Close]

theorem step_window {fuel : Nat} {c c1 : client} {e : Event}
    (h : step fuel c e = some c1) (hb : len c.dataWindow ≤ c.windowSize) :
    len c1.dataWindow ≤ c1.windowSize ∧ c1.windowSize = c.windowSize := by
  cases e with
  | recv msg =>
    simp only [step, Option.some.injEq] at h
    subst h
    obtain ⟨h1, h2⟩ := masterRead_window c msg
    exact ⟨by rw [h2]; exact le_trans h1 hb, h2⟩
  | write =>
    simp only [step] at h
    split at h
    · exact absurd h (by simp)
    · rename_i msg rest hq
      obtain ⟨ha, rfl⟩ := masterWrite_eq_some h
      have h3 : len c.dataWindow < c.windowSize := ha.2.2
      have h4 := len_insert_le c.dataWindow msg.SeqNum msg
      refine ⟨?_, rfl⟩
      show len (c.dataWindow.insert msg.SeqNum msg) ≤ c.windowSize
      omega
  | epoch =>
    simp only [step, Option.some.injEq] at h
    subst h
    obtain ⟨h1, h2⟩ := epochHelper_window c
    rw [h1, h2]
    exact ⟨hb, rfl⟩
  | apiWrite payload =>
    simp only [step, Option.some.injEq] at h
    subst h
    unfold Write
    split_ifs <;> exact ⟨hb, rfl⟩
  | apiClose =>
    simp only [step, Option.some.injEq] at h
    subst h
    exact ⟨hb, rfl⟩
  | connected =>
    simp only [step] at h
    split at h
    · exact absurd h (by simp)
    · simp only [Option.some.injEq] at h
      subst h
      exact ⟨hb, rfl⟩

theorem run_window {fuel : Nat} (events : List Event) {c c1 : client}
    (h : run fuel c events = some c1) (hb : len c.dataWindow ≤ c.windowSize) :
    len c1.dataWindow ≤ c1.windowSize ∧ c1.windowSize = c.windowSize := by
  induction events generalizing c with
  | nil =>
    simp only [run, Option.some.injEq] at h
    subst h
    exact ⟨hb, rfl⟩
  | cons e es ih =>
    simp only [run] at h
    split at h
    · exact absurd h (by simp)
    · rename_i c2 hs
      obtain ⟨h1, h2⟩ := step_window hs hb
      obtain ⟨h3, h4⟩ := ih h h1
      exact ⟨h3, h4.trans h2⟩

/-! ### Acks for sequence numbers that are not outstanding -/

theorem masterAck_of_not_mem (c : client) (msg : Message) (h0 : msg.SeqNum ≠ 0)
    (hmem : msg.SeqNum ∉ c.dataWindow) : masterAck c msg = c := by
  unfold masterAck
  simp only
  rw [if_neg h0, if_neg hmem]

theorem masterAck_dataWindow (c : client) (msg : Message) (h0 : msg.SeqNum ≠ 0)
    (hmem : msg.SeqNum ∈ c.dataWindow) :
    (masterAck c msg).dataWindow = c.dataWindow.erase msg.SeqNum := by
  unfold masterAck
  simp only
  rw [if_neg h0, if_pos hmem]
  split_ifs <;> rfl

theorem not_mem_masterAck (c : client) (msg : Message) (h0 : msg.SeqNum ≠ 0) :
    msg.SeqNum ∉ (masterAck c msg).dataWindow := by
  by_cases hmem : msg.SeqNum ∈ c.dataWindow
  · rw [masterAck_dataWindow c msg h0 hmem, AList.mem_erase]
    exact fun h => h.1 rfl
  · rw [masterAck_of_not_mem c msg h0 hmem]
    exact hmem

/-! ### Epochs of a connected client -/

theorem epochHelper_connected (c : client) (hconn : 0 < c.connID) (hexp : c.expectedSN ≠ 0) :
    epochHelper c =
      { c with
        wire := c.wire ++ values c.dataWindow ++ values c.ackWindow
        numEpochs := wrap64 (c.numEpochs + 1) } := by
  unfold epochHelper
  rw [if_neg (not_le.mpr hconn), if_neg hexp]
  simp only [foldl_sendMessage]

theorem count_wire_iterate_epochHelper (m : Message) (e : Nat) (c : client)
    (hconn : 0 < c.connID) (hexp : c.expectedSN ≠ 0) :
    List.count m (epochHelper^[e] c).wire =
      List.count m c.wire +
        e * (List.count m (values c.dataWindow) + List.count m (values c.ackWindow)) := by
  induction e generalizing c with
  | zero => simp
  | succ k ih =>
    rw [Function.iterate_succ_apply, epochHelper_connected c hconn hexp]
    rw [ih { c with
        wire := c.wire ++ values c.dataWindow ++ values c.ackWindow
        numEpochs := wrap64 (c.numEpochs + 1) } hconn hexp]
    simp only [List.count_append]
    ring

/-! ### The Ack window on acceptance -/

theorem findNewMin_singleton (k : Int) (v : Message) (hk : k ≤ MaxInt) :
    findNewMin (AList.singleton k v) = k := by
  unfold findNewMin
  simp only [AList.keys_singleton, List.foldl_cons, List.foldl_nil]
  split_ifs with h
  · rfl
  · omega

/-- Whenever `ackWindow` holds a single Ack, accepting the expected Data
message evicts it and leaves the new Ack as the only entry, whatever the
window size. -/
theorem masterData_ackWindow_singleton (c : client) (msg : Message) (k : Int) (v : Message)
    (hk : k ≤ MaxInt) (haw : c.ackWindow = AList.singleton k v)
    (heq : msg.SeqNum = c.expectedSN) :
    (masterData c msg).ackWindow = AList.singleton msg.SeqNum (NewAck c.connID msg.SeqNum) := by
  unfold masterData
  simp only
  rw [if_pos heq]
  simp only [sendMessage, haw, findNewMin_singleton k v hk]
  apply AList.ext
  simp [AList.singleton, AList.erase]

/-! ### What the read case leaves alone -/

theorem masterAck_expectedSN (c : client) (msg : Message) :
    (masterAck c msg).expectedSN = c.expectedSN ∧
      (masterAck c msg).intermedReadCh = c.intermedReadCh := by
  unfold masterAck
  simp only
  split_ifs <;> simp

theorem delivered_masterData (c : client) (n : Nat) (msg : Message)
    (h : Delivered c n) (hn : (n : Int) + 1 < MaxInt) : Delivered (masterData c msg) (n + 1) := by
  obtain ⟨h1, h2, h3⟩ := h
  unfold masterData
  simp only
  split_ifs with heq
  · have hw : wrap64 (c.expectedSN + 1) = c.expectedSN + 1 := by
      apply wrap64_eq_self
      · unfold MinInt; omega
      · unfold MaxInt at hn ⊢; omega
    refine ⟨?_, ?_, ?_⟩
    · simp only [sendMessage, hw]; omega
    · simp only [sendMessage, hw]; push_cast; omega
    · simp only [sendMessage, hw, List.map_append, List.map_cons, List.map_nil, h3]
      have hk : (c.expectedSN + 1 - 1).toNat = (c.expectedSN - 1).toNat + 1 := by omega
      rw [hk, List.range'_1_concat, List.map_append, List.map_cons, List.map_nil]
      congr 2
      rw [heq]
      show c.expectedSN = ((1 + (c.expectedSN - 1).toNat : Nat) : Int)
      push_cast
      omega
  · exact ⟨h1, by push_cast; omega, h3⟩

theorem delivered_masterRead (c : client) (n : Nat) (msg : Message)
    (h : Delivered c n) (hn : (n : Int) + 1 < MaxInt) : Delivered (masterRead c msg) (n + 1) := by
  unfold masterRead
  split
  · obtain ⟨h1, h2, h3⟩ := h
    obtain ⟨e1, e2⟩ := masterAck_expectedSN c msg
    refine ⟨?_, ?_, ?_⟩
    · rw [e1]; exact h1
    · rw [e1]; push_cast; omega
    · rw [e1, e2]; exact h3
  · exact delivered_masterData c n msg h hn
  · obtain ⟨h1, h2, h3⟩ := h
    exact ⟨h1, by push_cast; omega, h3⟩

theorem delivered_foldl (msgs : List Message) (c : client) (n : Nat)
    (h : Delivered c n) (hn : (n : Int) + msgs.length < MaxInt) :
    Delivered (msgs.foldl masterRead c) (n + msgs.length) := by
  induction msgs generalizing c n with
  | nil => simpa using h
  | cons m ms ih =>
    simp only [List.foldl_cons, List.length_cons]
    have h1 : Delivered (masterRead c m) (n + 1) := by
      apply delivered_masterRead c n m h
      simp only [List.length_cons] at hn
      push_cast at hn
      have := Int.ofNat_nonneg ms.length
      omega
    have h2 := ih (masterRead c m) (n + 1) h1 (by
      simp only [List.length_cons] at hn
      push_cast at hn ⊢
      omega)
    have e : n + (ms.length + 1) = n + 1 + ms.length := by omega
    rw [e]
    exact h2

/-! ### `expectedSN` never is 0 after `NewClient` -/

theorem masterRead_expectedSN (c : client) (msg : Message) :
    (masterRead c msg).expectedSN = c.expectedSN ∨
      (masterRead c msg).expectedSN = wrap64 (c.expectedSN + 1) := by
  unfold masterRead
  split
  · exact Or.inl (masterAck_expectedSN c msg).1
  · unfold masterData
    simp only
    split_ifs
    · exact Or.inr rfl
    · exact Or.inl rfl
  · exact Or.inl rfl

theorem step_expectedSN {fuel : Nat} {c c1 : client} {e : Event}
    (h : step fuel c e = some c1) :
    c1.expectedSN = c.expectedSN ∨ c1.expectedSN = wrap64 (c.expectedSN + 1) := by
  cases e with
  | recv msg =>
    simp only [step, Option.some.injEq] at h
    subst h
    exact masterRead_expectedSN c msg
  | write =>
    simp only [step] at h
    split at h
    · exact absurd h (by simp)
    · obtain ⟨_, rfl⟩ := masterWrite_eq_some h
      exact Or.inl rfl
  | epoch =>
    simp only [step, Option.some.injEq] at h
    subst h
    left
    unfold epochHelper
    simp only [foldl_sendMessage]
    split_ifs <;> rfl
  | apiWrite payload =>
    simp only [step, Option.some.injEq] at h
    subst h
    left
    unfold Write
    split_ifs <;> rfl
  | apiClose =>
    simp only [step, Option.some.injEq] at h
    subst h
    exact Or.inl rfl
  | connected =>
    simp only [step] at h
    split at h
    · exact absurd h (by simp)
    · simp only [Option.some.injEq] at h
      subst h
      exact Or.inl rfl

/-- In every state reached from a state with `1 ≤ expectedSN ≤ 1 + n` by fewer
than `MaxInt - n` events, `expectedSN` is at least 1; in particular it is not
0, the value the keep-alive branch of `epochHelper` tests for. -/
theorem run_expectedSN_pos {fuel : Nat} (events : List Event) {c c1 : client} (n : Nat)
    (h : run fuel c events = some c1) (h1 : 1 ≤ c.expectedSN) (h2 : c.expectedSN ≤ 1 + (n : Int))
    (hn : (n : Int) + events.length < MaxInt) :
    1 ≤ c1.expectedSN ∧ c1.expectedSN ≤ 1 + (n : Int) + events.length := by
  induction events generalizing c n with
  | nil =>
    simp only [run, Option.some.injEq] at h
    subst h
    exact ⟨h1, by simpa using h2⟩
  | cons e es ih =>
    simp only [run] at h
    simp only [List.length_cons] at hn ⊢
    push_cast at hn ⊢
    have hlen := Int.ofNat_nonneg es.length
    split at h
    · exact absurd h (by simp)
    · rename_i c2 hs
      have hw : wrap64 (c.expectedSN + 1) = c.expectedSN + 1 := by
        apply wrap64_eq_self
        · unfold MinInt; omega
        · unfold MaxInt at hn ⊢; omega
      have hb : 1 ≤ c2.expectedSN ∧ c2.expectedSN ≤ 1 + ((n + 1 : Nat) : Int) := by
        rcases step_expectedSN hs with h3 | h3
        · rw [h3]; push_cast; omega
        · rw [h3, hw]; push_cast; omega
      have h4 := ih (n + 1) h hb.1 hb.2 (by push_cast; omega)
      push_cast at h4
      exact ⟨h4.1, by omega⟩

/-! ## C1: in-order, at-most-once delivery -/

/-- C1. Starting from the freshly connected client (`expectedSN = 1`, empty
read queue), after the read case of `master` has processed any finite sequence
of inbound messages (fewer than `MaxInt` of them, so that `expectedSN++` does
not overflow), the sequence numbers pushed to `intermedReadCh` are exactly
`1, 2, …, k` in that order, where `k = expectedSN - 1` in the final state. -/
theorem C1_in_order_delivery (params : Params) (connectAck : Message) (msgs : List Message)
    (hlen : (msgs.length : Int) < MaxInt) :
    ((msgs.foldl masterRead (freshClient params connectAck)).intermedReadCh.map
        (fun m => m.SeqNum) =
      (List.range' 1
        ((msgs.foldl masterRead (freshClient params connectAck)).expectedSN - 1).toNat).map
        Int.ofNat) ∧
    1 ≤ (msgs.foldl masterRead (freshClient params connectAck)).expectedSN := by
  have h0 : Delivered (freshClient params connectAck) 0 := by
    refine ⟨?_, ?_, ?_⟩ <;> simp [freshClient, NewClientFinish, NewClientInit]
  have h := delivered_foldl msgs (freshClient params connectAck) 0 h0 (by simpa using hlen)
  exact ⟨h.2.2, h.1⟩

/-- C1, arrival order 3, 1, 2: sequence numbers 1 and 2 are delivered in that
order and 3 is dropped. -/
theorem C1_in_order_delivery_witness :
    ((arrival312.length : Int) < MaxInt) ∧
    ((arrival312.foldl masterRead (freshClient params1 connAck7)).intermedReadCh.map
        (fun m => m.SeqNum) =
      (List.range' 1
        ((arrival312.foldl masterRead (freshClient params1 connAck7)).expectedSN - 1).toNat).map
        Int.ofNat) ∧
    (arrival312.foldl masterRead (freshClient params1 connAck7)).intermedReadCh =
      [NewData 7 1 [49], NewData 7 2 [50]] :=
  ⟨by decide, (C1_in_order_delivery params1 connAck7 arrival312 (by decide)).1, by decide⟩

/-! ## C2: window bound -/

/-- C2. For every window size `≥ 0`: from any state with an empty `dataWindow`
(in particular the one `NewClient` builds), whatever its other fields and
whatever requests are queued, every state reached by handling any sequence of
inbound messages (Ack, Data), write requests, epochs and facade calls has at
most `windowSize` entries in `dataWindow`. -/
theorem C2_window_bound (fuel : Nat) (c0 c : client) (events : List Event)
    (hempty : c0.dataWindow = ∅) (hws : 0 ≤ c0.windowSize)
    (hrun : run fuel c0 events = some c) :
    len c.dataWindow ≤ c0.windowSize := by
  have hb : len c0.dataWindow ≤ c0.windowSize := by
    rw [hempty]
    exact hws
  obtain ⟨h1, h2⟩ := run_window events hrun hb
  rw [← h2]
  exact h1

/-- C2 on a concrete session with a window of one message. -/
theorem C2_window_bound_witness :
    len ((run 3 (NewClientInit params1) session).getD (NewClientInit params1)).dataWindow ≤
      (NewClientInit params1).windowSize :=
  C2_window_bound 3 (NewClientInit params1)
    ((run 3 (NewClientInit params1) session).getD (NewClientInit params1)) session
    rfl (by decide) (by decide)

/-! ## C3: the handshake retry counter -/

/-- While the client is unconnected and the retry counter is below the limit,
an epoch sends one Connect and changes nothing else: the counter is not
incremented. -/
theorem epochHelper_unconnected (c : client) (hc : c.connID ≤ 0)
    (hn : c.numEpochs < c.epochLimit) : epochHelper c = { c with wire := c.wire ++ [NewConnect] } := by
  unfold epochHelper
  rw [if_pos hc, if_pos hn]
  rfl

/-- With `EpochLimit ≥ 1` and no acknowledgement, every epoch retransmits the
Connect request: after `n` epochs the wire holds `n + 1` Connects, the retry
counter is still 0 and the client is not closed. -/
theorem handshake_retries_forever (params : Params) (hlim : 1 ≤ params.EpochLimit) (n : Nat) :
    epochHelper^[n] (NewClientInit params) =
      { NewClientInit params with wire := List.replicate (n + 1) NewConnect } := by
  induction n with
  | zero => rfl
  | succ k ih =>
    rw [Function.iterate_succ_apply', ih, epochHelper_unconnected]
    · simp only [List.replicate_succ', List.append_assoc]
    · exact le_refl _
    · show (0 : Int) < params.EpochLimit
      omega

/-- C3, evaluated with `EpochLimit = 1`: after two epochs without any
acknowledgement, the Connect request has been retransmitted twice (three
Connects on the wire), `numEpochs` is still 0 and the client is not closed. -/
theorem C3_handshake_two_epochs :
    (epochHelper (epochHelper (NewClientInit params1))).wire =
        [NewConnect, NewConnect, NewConnect] ∧
      (epochHelper (epochHelper (NewClientInit params1))).numEpochs = 0 ∧
      (epochHelper (epochHelper (NewClientInit params1))).isClosed = false ∧
      (epochHelper (NewClientInit params1)).numEpochs = 0 := by
  decide

/-! ## C4: the window after the last outstanding message is acknowledged -/

/-- Once the only outstanding message is acknowledged, `lowestUnackSN` is
`MaxInt`, and no write request passes the admission test, whatever the window
size in `1 … MaxInt`. -/
theorem window_shut_after_drain (c : client) (ack msg : Message) (h0 : ack.SeqNum ≠ 0)
    (hmem : ack.SeqNum ∈ c.dataWindow) (hone : len c.dataWindow = 1)
    (hlow : c.lowestUnackSN = ack.SeqNum) (hws1 : 1 ≤ c.windowSize)
    (hws2 : c.windowSize ≤ MaxInt) (hsn : msg.SeqNum ≤ MaxInt) :
    (masterAck c ack).lowestUnackSN = MaxInt ∧ ¬ admissible (masterAck c ack) msg := by
  have hlen : len (c.dataWindow.erase ack.SeqNum) = 0 := by
    unfold len at hone ⊢
    have h1 : (c.dataWindow.erase ack.SeqNum).keys = c.dataWindow.keys.erase ack.SeqNum :=
      AList.keys_erase _ _
    have h2 : (c.dataWindow.erase ack.SeqNum).keys.length + 1 = c.dataWindow.keys.length := by
      rw [h1, List.length_erase_of_mem (AList.mem_keys.mp hmem)]
      have : 0 < c.dataWindow.keys.length := List.length_pos_of_mem (AList.mem_keys.mp hmem)
      omega
    simp only [AList.keys, List.keys, List.length_map] at h2
    omega
  have hempty : (c.dataWindow.erase ack.SeqNum) = ∅ := by
    apply AList.ext
    unfold len at hlen
    have : (c.dataWindow.erase ack.SeqNum).entries.length = 0 := by exact_mod_cast hlen
    rw [List.length_eq_zero] at this
    rw [this]
    rfl
  have hres : masterAck c ack =
      (if c.isClosed && decide (c.writeCh.length = 0) && decide (len (∅ : MsgMap) = 0) then
        { c with dataWindow := ∅, lowestUnackSN := MaxInt, closeCh := c.closeCh + 1 }
      else { c with dataWindow := ∅, lowestUnackSN := MaxInt }) := by
    unfold masterAck
    simp only
    rw [if_neg h0, if_pos hmem, if_pos hlow.symm, if_pos hlen, hempty]
    rfl
  have hlow2 : (masterAck c ack).lowestUnackSN = MaxInt := by
    rw [hres]; split_ifs <;> rfl
  have hws3 : (masterAck c ack).windowSize = c.windowSize := (masterAck_window c ack).2
  refine ⟨hlow2, ?_⟩
  rintro ⟨h1, h2, _⟩
  rw [hlow2] at h1
  rw [hlow2, hws3] at h2
  exact not_le_wrap64_MaxInt_add hws1 hws2 hsn h1 h2

/-- C4, evaluated with `windowSize = 1`: after "A" (sequence number 1) was
sent and acknowledged, `dataWindow` is empty and `lowestUnackSN` is `MaxInt`;
the request "B" with sequence number 2 does not pass the admission test, and
the write case produces no result for it, however many iterations it runs. -/
theorem C4_window_stays_shut :
    (run 1 (freshClient params1 connAck7) scenarioAB).isSome = true ∧
      afterAckA.dataWindow = ∅ ∧
      afterAckA.lowestUnackSN = MaxInt ∧
      afterAckA.writeCh = [NewData 7 2 [66]] ∧
      ¬ admissible afterAckA (NewData 7 2 [66]) ∧
      ∀ fuel : Nat, step fuel afterAckA Event.write = none := by
  refine ⟨by decide, by decide, by decide, by decide, by decide, ?_⟩
  intro fuel
  cases fuel with
  | zero => rfl
  | succ k =>
    have hq : afterAckA.writeCh = [NewData 7 2 [66]] := by decide
    simp only [step, hq]
    rw [masterWrite_succ, if_neg (by decide)]

/-! ## C5: Ack idempotence -/

/-- C5. For every state and every Ack with sequence number `n ≥ 1`: handling a
second Ack with the same sequence number right after the first leaves the
state exactly as the first left it (nothing more is removed from `dataWindow`,
`lowestUnackSN` is not changed again, no further close signal is emitted); and
an Ack whose sequence number is not a key of `dataWindow` leaves the whole
state unchanged. -/
theorem C5_ack_idempotent (c : client) (ack ack2 : Message) (hn : 1 ≤ ack.SeqNum)
    (hsame : ack2.SeqNum = ack.SeqNum) :
    masterAck (masterAck c ack) ack2 = masterAck c ack ∧
      (ack.SeqNum ∉ c.dataWindow → masterAck c ack = c) := by
  have h0 : ack.SeqNum ≠ 0 := by omega
  refine ⟨?_, masterAck_of_not_mem c ack h0⟩
  apply masterAck_of_not_mem
  · rw [hsame]; exact h0
  · rw [hsame]; exact not_mem_masterAck c ack h0

/-- C5 on a state with one outstanding message and a pending close: the first
Ack 1 empties the window and emits the close signal, the second changes
nothing. -/
theorem C5_ack_idempotent_witness :
    (1 ≤ (NewAck 7 1).SeqNum) ∧
      (masterAck oneOutstanding (NewAck 7 1)).closeCh = 1 ∧
      masterAck (masterAck oneOutstanding (NewAck 7 1)) (NewAck 7 1) =
        masterAck oneOutstanding (NewAck 7 1) :=
  ⟨by decide, by decide, (C5_ack_idempotent oneOutstanding (NewAck 7 1) (NewAck 7 1)
    (by decide) rfl).1⟩

/-! ## C6: retransmission once per epoch -/

/-- C6. For every connected state (`connID > 0`) past the keep-alive test
(`expectedSN ≠ 0`, which holds from `NewClient` on): one epoch appends to the
wire the messages of `dataWindow` followed by the Acks of `ackWindow`, each
entry once, and nothing else; it leaves both windows and every other field
unchanged, except `numEpochs`, which is incremented (by exactly 1 below
`MaxInt`).  Hence after `e` epochs every message has been put on the wire `e`
more times for each entry of the two windows that holds it. -/
theorem C6_retransmit_once_per_epoch (c : client) (hconn : 0 < c.connID)
    (hexp : c.expectedSN ≠ 0) :
    epochHelper c =
        { c with
          wire := c.wire ++ values c.dataWindow ++ values c.ackWindow
          numEpochs := wrap64 (c.numEpochs + 1) } ∧
      (MinInt ≤ c.numEpochs → c.numEpochs < MaxInt →
        (epochHelper c).numEpochs = c.numEpochs + 1) ∧
      ∀ (e : Nat) (m : Message),
        List.count m (epochHelper^[e] c).wire =
          List.count m c.wire +
            e * (List.count m (values c.dataWindow) + List.count m (values c.ackWindow)) := by
  refine ⟨epochHelper_connected c hconn hexp, ?_, ?_⟩
  · intro h1 h2
    rw [epochHelper_connected c hconn hexp]
    apply wrap64_eq_self
    · omega
    · omega
  · intro e m
    exact count_wire_iterate_epochHelper m e c hconn hexp

/-- C6 with `windowSize = 1`: "A" (sequence number 1) is sent once by the
write case and, unacknowledged for two epochs, is on the wire exactly three
times; the two epochs sent nothing else. -/
theorem C6_retransmit_once_per_epoch_witness :
    (0 < sentA.connID ∧ sentA.expectedSN ≠ 0) ∧
      List.count (NewData 7 1 [65]) sentA.wire = 1 ∧
      List.count (NewData 7 1 [65]) (epochHelper^[2] sentA).wire =
        List.count (NewData 7 1 [65]) sentA.wire +
          2 * (List.count (NewData 7 1 [65]) (values sentA.dataWindow) +
            List.count (NewData 7 1 [65]) (values sentA.ackWindow)) ∧
      (epochHelper^[2] sentA).wire =
        [NewConnect, NewData 7 1 [65], NewData 7 1 [65], NewData 7 1 [65]] :=
  ⟨by decide, by decide,
    (C6_retransmit_once_per_epoch sentA (by decide) (by decide)).2.2 2 (NewData 7 1 [65]),
    by decide⟩

/-! ## C7: `lowestUnackSN` after an Ack for the oldest outstanding message -/

/-- C7, evaluated with `windowSize = 3`: sequence numbers 1 and 3 are
outstanding and `lowestUnackSN` is 1; after Ack 1 the only remaining key is 3,
yet `lowestUnackSN` is 2; a later Ack 3 empties the window and leaves
`lowestUnackSN` at 2. -/
theorem C7_lowest_not_minimum :
    (run 1 (freshClient params3 connAck7) scenarioGap.dropLast).isSome = true ∧
      beforeAck1.dataWindow.keys = [3, 1] ∧
      beforeAck1.lowestUnackSN = 1 ∧
      (masterAck beforeAck1 (NewAck 7 1)).dataWindow.keys = [3] ∧
      findNewMin (masterAck beforeAck1 (NewAck 7 1)).dataWindow = 3 ∧
      (masterAck beforeAck1 (NewAck 7 1)).lowestUnackSN = 2 ∧
      (masterAck (masterAck beforeAck1 (NewAck 7 1)) (NewAck 7 3)).dataWindow = ∅ ∧
      (masterAck (masterAck beforeAck1 (NewAck 7 1)) (NewAck 7 3)).lowestUnackSN = 2 := by
  decide

/-! ## C8: contents of `ackWindow` -/

/-- C8, evaluated with `windowSize = 2`: after the in-order Data messages 1 and
2 were accepted, `ackWindow` holds the Ack for 2 only; the Ack for 1 was
evicted although the window held a single entry. -/
theorem C8_ackWindow_keeps_one :
    ([NewData 7 1 [49], NewData 7 2 [50]].foldl masterData
        (freshClient params2 connAck7)).expectedSN = 3 ∧
      ([NewData 7 1 [49], NewData 7 2 [50]].foldl masterData
        (freshClient params2 connAck7)).ackWindow = AList.singleton 2 (NewAck 7 2) ∧
      ([NewData 7 1 [49]].foldl masterData
        (freshClient params2 connAck7)).ackWindow = AList.singleton 1 (NewAck 7 1) := by
  decide

/-! ## C9: keep-alive -/

/-- In a freshly connected client an epoch sends nothing: the keep-alive
branch tests `expectedSN = 0`, while `NewClient` sets `expectedSN` to 1. -/
theorem epochHelper_freshClient (params : Params) (connectAck : Message)
    (hconn : 0 < connectAck.ConnID) :
    epochHelper (freshClient params connectAck) =
      { freshClient params connectAck with numEpochs := 1 } := by
  have hexp : (freshClient params connectAck).expectedSN ≠ 0 := by
    show (1 : Int) ≠ 0
    decide
  rw [epochHelper_connected _ hconn hexp]
  rfl

/-- C9, evaluated on the freshly connected client with connection id 7:
`expectedSN` has the value `NewClient` gave it, and an epoch puts nothing on
the wire, in particular no Ack with sequence number 0; it only increments
`numEpochs`. -/
theorem C9_no_keep_alive :
    0 < (freshClient params1 connAck7).connID ∧
      (freshClient params1 connAck7).expectedSN = (NewClientInit params1).expectedSN ∧
      (epochHelper (freshClient params1 connAck7)).wire = (freshClient params1 connAck7).wire ∧
      NewAck 7 0 ∉ (epochHelper (freshClient params1 connAck7)).wire ∧
      (epochHelper (freshClient params1 connAck7)).numEpochs = 1 := by
  decide

/-! ## C10: the write case -/

/-- C10, evaluated with `windowSize = 1`: "A" was sent with sequence number 1
and is not acknowledged, so the window is full and the request "B" with
sequence number 2 does not pass the admission test; the loop of the write
case then yields no result for "B", however many iterations it is given, so
the write case does not return and the Ack for "A" is not handled. -/
theorem C10_write_spins :
    (sentA.dataWindow.keys = [1] ∧ len sentA.dataWindow = sentA.windowSize ∧
      ¬ admissible sentA (NewData 7 2 [66])) ∧
    ¬ ∃ fuel : Nat, (masterWrite fuel sentA (NewData 7 2 [66])).isSome = true := by
  refine ⟨by decide, ?_⟩
  rintro ⟨fuel, h⟩
  cases fuel with
  | zero => simp [masterWrite] at h
  | succ k =>
    rw [masterWrite_succ, if_neg (by decide)] at h
    simp at h

end lsp
